import Mathlib

/-!
Verification of the `interledger-store-redis` store (`src/crates/interledger-store-redis/src/store.rs`).

The store keeps all durable state in Redis hashes/sets and two in-process
caches (exchange rates and the merged routing table).  We embed that state
shallowly: every Redis hash becomes an association list (first binding wins on
lookup, `hset` replaces in place), the `next_account_id` counter becomes an
`Option Nat` (`none` models an absent key), and each store operation becomes a
pure function from `RedisStore` to `RedisStore`, returning `Except` where the
original can fail.  Machine integers are modelled with `Nat`/`Int`: balances
are mathematical integers (the spec's "signed integer per (asset, account)"),
and the two `as i64` casts in `undo_balance_update` are modelled explicitly
with two's-complement wrapping, which is where the interesting numeric
behaviour of the source lives.
-/

namespace InterledgerStore

/-- First-match lookup in an association list, the model of `HGET`. -/
def alookup {α β : Type} [DecidableEq α] : List (α × β) → α → Option β
  | [], _ => none
  | kv :: t, k => if k = kv.1 then some kv.2 else alookup t k

/-- Replace-or-append update of an association list, the model of `HSET`. -/
def aset {α β : Type} [DecidableEq α] : List (α × β) → α → β → List (α × β)
  | [], k, v => [(k, v)]
  | kv :: t, k, v => if kv.1 = k then (k, v) :: t else kv :: aset t k v

/-- Left-biased choice on options (used to describe merged lookups). -/
def ofirst {β : Type} : Option β → Option β → Option β
  | some v, _ => some v
  | none, b => b

@[simp] theorem ofirst_some {β : Type} (v : β) (b : Option β) :
    ofirst (some v) b = some v := rfl

@[simp] theorem ofirst_none {β : Type} (b : Option β) :
    ofirst none b = b := rfl

@[simp] theorem alookup_nil {α β : Type} [DecidableEq α] (k : α) :
    alookup ([] : List (α × β)) k = none := rfl

theorem alookup_cons {α β : Type} [DecidableEq α] (kv : α × β) (t : List (α × β)) (k : α) :
    alookup (kv :: t) k = if k = kv.1 then some kv.2 else alookup t k := rfl

/-- Looking up the key just set returns the new value. -/
theorem alookup_aset_self {α β : Type} [DecidableEq α]
    (l : List (α × β)) (k : α) (v : β) : alookup (aset l k v) k = some v := by
  induction l with
  | nil => simp [aset, alookup]
  | cons kv t ih =>
      by_cases h : kv.1 = k
      · simp [aset, h, alookup]
      · have h' : ¬ k = kv.1 := fun e => h e.symm
        simp [aset, h, alookup, h', ih]

/-- Setting one key does not change the lookup of another. -/
theorem alookup_aset_ne {α β : Type} [DecidableEq α]
    (l : List (α × β)) (k k' : α) (v : β) (h : k' ≠ k) :
    alookup (aset l k v) k' = alookup l k' := by
  induction l with
  | nil => simp [aset, alookup, h]
  | cons kv t ih =>
      by_cases hk : kv.1 = k
      · simp [aset, hk, alookup, h, hk ▸ h]
      · simp [aset, hk, alookup, ih]

theorem alookup_append {α β : Type} [DecidableEq α]
    (a b : List (α × β)) (k : α) :
    alookup (a ++ b) k = ofirst (alookup a k) (alookup b k) := by
  induction a with
  | nil => simp [alookup]
  | cons kv t ih =>
      by_cases h : k = kv.1
      · simp [alookup, h]
      · simp [alookup, h, ih]

instance {ε α : Type} [DecidableEq ε] [DecidableEq α] : DecidableEq (Except ε α)
  | .ok a, .ok b =>
      if h : a = b then .isTrue (congrArg Except.ok h)
      else .isFalse (fun he => h (Except.ok.inj he))
  | .ok _, .error _ => .isFalse (fun he => Except.noConfusion he)
  | .error _, .ok _ => .isFalse (fun he => Except.noConfusion he)
  | .error e, .error f =>
      if h : e = f then .isTrue (congrArg Except.error h)
      else .isFalse (fun he => h (Except.error.inj he))

/-- ASCII lowercasing, the model of both Rust's `str::to_lowercase` (in
`balance_key`) and Lua's `string.lower` (in the `UPDATE_BALANCES` script);
asset codes are ASCII, where the two agree. -/
def lowercase (s : String) : String := ⟨s.data.map Char.toLower⟩

/-- An account record as stored in the `accounts:<id>` hash: the id plus the
attributes §3 of the spec lists.  `min_balance`/`max_balance` are optional
signed integers, the credential fields optional opaque strings. -/
structure Account where
  id : Nat
  asset_code : String
  min_balance : Option Int
  max_balance : Option Int
  ilp_address : String
  btp_incoming_authorization : Option String
  http_incoming_authorization : Option String
  xrp_address : Option String
  send_routes : Bool
deriving DecidableEq

/-- Modelled from the spec: `AccountDetails` and `Account::try_from` live in
the `interledger-api` crate and the store's account module, which are not
among the sources here.  Per §3 a registration carries every account
attribute except the id, which `insert_account` assigns; the out-of-scope
schema validation (§1) is not modelled. -/
structure AccountDetails where
  asset_code : String
  min_balance : Option Int
  max_balance : Option Int
  ilp_address : String
  btp_incoming_authorization : Option String
  http_incoming_authorization : Option String
  xrp_address : Option String
  send_routes : Bool
deriving DecidableEq

/-- Modelled from the spec: builds the account record from the freshly
assigned id and the registration details. -/
def Account.try_from (id : Nat) (d : AccountDetails) : Account :=
  { id := id
    asset_code := d.asset_code
    min_balance := d.min_balance
    max_balance := d.max_balance
    ilp_address := d.ilp_address
    btp_incoming_authorization := d.btp_incoming_authorization
    http_incoming_authorization := d.http_incoming_authorization
    xrp_address := d.xrp_address
    send_routes := d.send_routes }

/-- The store state: the Redis-side keys of §6 (each hash an association
list, sets a plain list, the `next_account_id` counter an `Option Nat` whose
`none` models the key never having been created) plus the in-process merged
routing-table cache.  The per-asset ledgers `balances:<asset>` are flattened
into one association list keyed by `(lowercased asset code, account id)`.
The in-process exchange-rate cache is passed to `get_exchange_rates`
directly (see there). -/
structure RedisStore where
  accounts : List (Nat × Account)
  balances : List ((String × Nat) × Int)
  btp_auth : List (String × Nat)
  http_auth : List (String × Nat)
  xrp_addresses : List (String × Nat)
  send_routes_to : List Nat
  routes : List (String × Nat)
  static_routes : List (String × Nat)
  next_account_id : Option Nat
  routes_cache : List (String × Nat)
deriving DecidableEq

/-- Errors of the store operations (§7), each operation fully failing with no
partial write. -/
inductive StoreError where
  | insufficientBalance
  | missingBalance
  | conflict (field : String)
  | countMismatch
  | accountNotFound
  | nilCounter
  | argNotInteger
  | incrOverflow
deriving DecidableEq

/-- Model of `balance_key` together with the hash field it is read with: the
slot of one account's balance, `balances:<asset_lowercase>` field `<id>`. -/
def balance_slot (asset_code : String) (account_id : Nat) : String × Nat :=
  (lowercase asset_code, account_id)

/-- Model of Redis `HINCRBY` on a balance slot: an absent field counts as 0;
returns the new value and the updated ledger. -/
def hincrby (l : List ((String × Nat) × Int)) (k : String × Nat) (delta : Int) :
    Int × List ((String × Nat) × Int) :=
  let v := (alookup l k).getD 0 + delta
  (v, aset l k v)

/-- Fuel-bounded floor of the base-2 logarithm (the fuel keeps the
recursion structural so the kernel can evaluate it; 128 covers every
integer this development touches). -/
def log2fuel : Nat → Nat → Nat
  | 0, _ => 0
  | fuel + 1, n => if n ≤ 1 then 0 else log2fuel fuel (n / 2) + 1

/-- See `log2fuel`. -/
def nat_log2 (n : Nat) : Nat := log2fuel 128 n

/-- The integer value of the IEEE-754 binary64 double nearest to `n` (round
to nearest, ties to even): below `2^53` every integer is exactly
representable; above, the unit in the last place is `2^e` with
`2^(52+e) ≤ n < 2^(53+e)` and `n` is rounded to the nearest multiple, ties
going to the even mantissa. -/
def flNat (n : Nat) : Nat :=
  if n < 2 ^ 53 then n
  else
    let e := nat_log2 n - 52
    let u := 2 ^ e
    let q := n / u
    let r := n % u
    if 2 * r < u then q * u
    else if 2 * r > u then (q + 1) * u
    else if q % 2 = 0 then q * u else (q + 1) * u

/-- The integer value of the double nearest to `x` — the result of Lua 5.1's
`tonumber` on the decimal string of `x`, every Lua number being a binary64
double (rounding is sign-symmetric). -/
def fl (x : Int) : Int :=
  if x < 0 then -((flNat x.natAbs : Nat) : Int) else ((flNat x.natAbs : Nat) : Int)

/-- The `UPDATE_BALANCES` Lua script, executed by Redis `EVAL`.  All numbers
pass through Lua 5.1 doubles: `tonumber(ARGV[3])`/`tonumber(ARGV[6])` round
the u64 amounts with `fl`, the stored `min_balance` and balance strings are
rounded the same way, and the guard compares
`fl balance < fl (fl min_balance + fl from_amount)` (double addition of
integer-valued doubles rounds their exact sum).  `missingBalance` models
the implicit Lua error of comparing `nil` when the balance field is absent
while a minimum is configured.  The two `HINCRBY`s then run in order with
the double-valued deltas (`0 - from_amount` is exact in doubles).  For each
`HINCRBY`, Redis formats the Lua number argument with `%.17g` and the
command's strict integer parse accepts it only in plain-digit form, i.e.
only when the magnitude is below `10^17` (an integer-valued double at or
above that prints in scientific notation and the command errors "value is
not an integer or out of range", writing nothing); the increment also
errors, writing nothing, when the new value would leave the int64 range.
An error aborts the `EVAL` at that point with every earlier write
persisted — failing on the second increment leaves the from-side debit in
place (Lua scripts are not transactional on error). -/
def update_balances_script (s : RedisStore) (from_asset : String) (from_id : Nat)
    (from_amount : Nat) (to_asset : String) (to_id : Nat) (to_amount : Nat) :
    Except StoreError (Int × Int) × RedisStore :=
  let from_amount_d : Int := fl (from_amount : Int)
  let to_amount_d : Int := fl (to_amount : Int)
  let r1 := hincrby s.balances (balance_slot from_asset from_id) (0 - from_amount_d)
  let r2 := hincrby r1.2 (balance_slot to_asset to_id) to_amount_d
  let apply_incrs : Except StoreError (Int × Int) × RedisStore :=
    if (10 : Int) ^ 17 ≤ |0 - from_amount_d| then (.error .argNotInteger, s)
    else if r1.1 < -(2 ^ 63) ∨ 2 ^ 63 - 1 < r1.1 then (.error .incrOverflow, s)
    else if (10 : Int) ^ 17 ≤ |to_amount_d| then
      (.error .argNotInteger, { s with balances := r1.2 })
    else if r2.1 < -(2 ^ 63) ∨ 2 ^ 63 - 1 < r2.1 then
      (.error .incrOverflow, { s with balances := r1.2 })
    else (.ok (r1.1, r2.1), { s with balances := r2.2 })
  match (alookup s.accounts from_id).bind Account.min_balance with
  | none => apply_incrs
  | some mb =>
      match alookup s.balances (balance_slot from_asset from_id) with
      | none => (.error .missingBalance, s)
      | some b =>
          if fl b < fl (fl mb + from_amount_d) then (.error .insufficientBalance, s)
          else apply_incrs

/-- Model of `BalanceStore::update_balances`: one `EVAL` of `UPDATE_BALANCES` with the
caller-supplied account objects' asset codes and ids and the two u64
amounts.  (The Rust wrapper logs and discards the returned balances; they
are kept here as the script's observable result.  The returned store is the
state after the call, including the partial write a mid-script error leaves
behind.) -/
def update_balances (s : RedisStore) (from_account : Account) (incoming_amount : Nat)
    (to_account : Account) (outgoing_amount : Nat) :
    Except StoreError (Int × Int) × RedisStore :=
  update_balances_script s from_account.asset_code from_account.id incoming_amount
    to_account.asset_code to_account.id outgoing_amount

/-- Model of `BalanceStore::get_balance`: `HGET` of the account's balance slot;
`none` models the nil reply (which the Rust caller fails to parse as an
integer). -/
def get_balance (s : RedisStore) (account : Account) : Option Int :=
  alookup s.balances (balance_slot account.asset_code account.id)

/-- The value of `x as i64` for a u64 `x`: two's-complement
reinterpretation, wrapping for `x ≥ 2^63`. -/
def u64_as_i64 (x : Nat) : Int := if x < 2 ^ 63 then (x : Int) else (x : Int) - 2 ^ 64

/-- Wrapping (release-mode) i64 arithmetic: reduce an integer into
`[-2^63, 2^63)`. -/
def i64_wrap (x : Int) : Int := (x + 2 ^ 63) % 2 ^ 64 - 2 ^ 63

/-- Model of `BalanceStore::undo_balance_update`: an atomic pipeline of two
`HINCRBY`s, `incoming_amount as i64` on the from slot and
`0i64 - outgoing_amount as i64` on the to slot (both casts wrapping, the
subtraction in wrapping i64 arithmetic), with no minimum- or
maximum-balance check — the pipeline is unconditional. -/
def undo_balance_update (s : RedisStore) (from_account : Account) (incoming_amount : Nat)
    (to_account : Account) (outgoing_amount : Nat) : RedisStore :=
  let r1 := hincrby s.balances (balance_slot from_account.asset_code from_account.id)
    (u64_as_i64 incoming_amount)
  let r2 := hincrby r1.2 (balance_slot to_account.asset_code to_account.id)
    (i64_wrap (0 - u64_as_i64 outgoing_amount))
  { s with balances := r2.2 }

/-- Model of `RedisStore::get_next_account_id`: `INCR next_account_id` (an absent key
is created at 0 and incremented) and return the new counter value minus
one. -/
def get_next_account_id (s : RedisStore) : Nat × RedisStore :=
  let c := s.next_account_id.getD 0 + 1
  (c - 1, { s with next_account_id := some c })

/-- Model of `AccountStore::get_accounts`: a pipeline of `HGETALL accounts:<id>`, one
per requested id.  An absent record yields no entry in the decoded vector
(modelled from the spec for the record decoding, which lives in the account
module), and the call succeeds only when as many records resolved as were
requested; otherwise it fails with no partial result. -/
def get_accounts (s : RedisStore) (account_ids : List Nat) :
    Except StoreError (List Account) :=
  let accounts := account_ids.filterMap (fun i => alookup s.accounts i)
  if accounts.length = account_ids.length then .ok accounts
  else .error .countMismatch

/-- Model of `NodeStore::get_all_accounts`: `GET next_account_id` — a nil reply (the
key was never created) fails to decode as an unsigned integer and fails the
call — then fetch every id below the counter, keeping the records that are
present. -/
def get_all_accounts (s : RedisStore) : Except StoreError (List Account) :=
  match s.next_account_id with
  | none => .error .nilCounter
  | some c => .ok ((List.range c).filterMap (fun i => alookup s.accounts i))

/-- Model of `ExchangeRateStore::get_exchange_rates`: reads only the in-process rate
cache (the backend connection is not even an argument); keeps, in request
order, the cached rate of each requested code and succeeds only when the
collected vector is as long as the request, i.e. when no code was missing.
The rate payload type is kept abstract (`ρ` stands for the f64 values, on
which this path performs no arithmetic). -/
def get_exchange_rates {ρ : Type} (exchange_rates : List (String × ρ))
    (asset_codes : List String) : Except Unit (List ρ) :=
  let rates := asset_codes.filterMap (fun code => alookup exchange_rates code)
  if rates.length = asset_codes.length then .ok rates else .error ()

/-- Building a map by inserting a list of pairs in order (`HashMap`
`from_iter`, or `HMSET` on an emptied hash): a later binding of a key
overwrites an earlier one. -/
def build_map {α β : Type} [DecidableEq α] (l : List (α × β)) : List (α × β) :=
  l.foldl (fun m kv => aset m kv.1 kv.2) []

/-- Model of `update_routes`: read the whole dynamic (`routes`) and static
(`routes:static`) tables in one pipeline and replace the in-process cache
with the map built from their concatenation, dynamic first — inserting the
static routes after the dynamic ones makes them overwrite any dynamic route
with the same prefix. -/
def update_routes (s : RedisStore) : RedisStore :=
  { s with routes_cache := build_map (s.routes ++ s.static_routes) }

/-- Model of `RouterStore::routing_table`: a snapshot copy of the in-process merged
cache. -/
def routing_table (s : RedisStore) : List (String × Nat) := s.routes_cache

/-- Model of `NodeStore::insert_account`: allocate the id with `INCR`; build the
record; run the read-only uniqueness pipeline — `EXISTS accounts:<id>`,
`HEXISTS` on the id's balance slot, then `HEXISTS` on `btp_auth`,
`http_auth` and `xrp_addresses` for whichever credentials are present, each
check carrying the field name reported on conflict ("ID", "ID", "BTP auth",
"HTTP auth", "XRP address") — and on the first hit fail with that label,
writing nothing.  Otherwise write, in one atomic pipeline, the
zero-initialized balance, the credential and settlement index entries, the
broadcast-set membership, the dynamic route for the account's ILP address
and the record itself, then refresh the routing cache and return the
account. -/
def insert_account (s : RedisStore) (details : AccountDetails) :
    Except StoreError Account × RedisStore :=
  let r := get_next_account_id s
  let id := r.1
  let s1 := r.2
  let account := Account.try_from id details
  let checks : List (String × Bool) :=
    [("ID", (alookup s1.accounts id).isSome),
     ("ID", (alookup s1.balances (balance_slot account.asset_code id)).isSome)]
    ++ (match account.btp_incoming_authorization with
        | some auth => [("BTP auth", (alookup s1.btp_auth auth).isSome)]
        | none => [])
    ++ (match account.http_incoming_authorization with
        | some auth => [("HTTP auth", (alookup s1.http_auth auth).isSome)]
        | none => [])
    ++ (match account.xrp_address with
        | some addr => [("XRP address", (alookup s1.xrp_addresses addr).isSome)]
        | none => [])
  match checks.find? (fun c => c.2) with
  | some c => (.error (.conflict c.1), s1)
  | none =>
      let s2 := { s1 with
        balances := aset s1.balances (balance_slot account.asset_code id) 0
        btp_auth := match account.btp_incoming_authorization with
          | some auth => aset s1.btp_auth auth id
          | none => s1.btp_auth
        http_auth := match account.http_incoming_authorization with
          | some auth => aset s1.http_auth auth id
          | none => s1.http_auth
        xrp_addresses := match account.xrp_address with
          | some addr => aset s1.xrp_addresses addr id
          | none => s1.xrp_addresses
        send_routes_to := if account.send_routes then
            (if id ∈ s1.send_routes_to then s1.send_routes_to
             else id :: s1.send_routes_to)
          else s1.send_routes_to
        routes := aset s1.routes account.ilp_address id
        accounts := aset s1.accounts id account }
      (.ok account, update_routes s2)

/-- Model of `NodeStore::set_static_route`: `EXISTS accounts:<account_id>` first — a
missing account fails the call with nothing written; otherwise `HSET` the
prefix into `routes:static` (a merge of one binding) and refresh the
cache. -/
def set_static_route (s : RedisStore) (pfx : String) (account_id : Nat) :
    Except StoreError Unit × RedisStore :=
  if (alookup s.accounts account_id).isSome then
    let s1 := { s with static_routes := aset s.static_routes pfx account_id }
    (.ok (), update_routes s1)
  else (.error .accountNotFound, s)

/-- Model of `NodeStore::set_static_routes`: one `EXISTS accounts:<id>` per distinct
referenced account id; if any is missing the whole call fails with nothing
written; otherwise `DEL` + `HMSET` replaces `routes:static` wholesale and
the cache is refreshed. -/
def set_static_routes (s : RedisStore) (routes : List (String × Nat)) :
    Except StoreError Unit × RedisStore :=
  let referenced := (routes.map (fun route => route.2)).dedup
  if referenced.all (fun i => (alookup s.accounts i).isSome) then
    let s1 := { s with static_routes := build_map routes }
    (.ok (), update_routes s1)
  else (.error .accountNotFound, s)

/-- A sequence of `insert_account` calls threaded through the store, `none`
as soon as one fails: the "sequence of successful insert_account calls" of
the id-allocation property. -/
def run_inserts (s : RedisStore) : List AccountDetails → Option (RedisStore × List Account)
  | [] => some (s, [])
  | d :: ds =>
      match insert_account s d with
      | (.ok a, s1) =>
          match run_inserts s1 ds with
          | some (s2, rest) => some (s2, a :: rest)
          | none => none
      | (.error _, _) => none

theorem ofirst_none_right {β : Type} (a : Option β) : ofirst a none = a := by
  cases a <;> rfl

/-- A key outside the key column of an association list looks up to nothing. -/
theorem alookup_eq_none_of_not_mem {α β : Type} [DecidableEq α]
    (l : List (α × β)) (k : α) (h : k ∉ l.map Prod.fst) : alookup l k = none := by
  induction l with
  | nil => rfl
  | cons kv t ih =>
      simp only [List.map_cons, List.mem_cons] at h
      push_neg at h
      simp [alookup, h.1, ih h.2]

/-- On a list with pairwise-distinct keys (every list standing for a Redis
hash), first-match lookup agrees with last-match lookup. -/
theorem alookup_reverse_of_nodup_keys {α β : Type} [DecidableEq α]
    (l : List (α × β)) (k : α) (h : (l.map Prod.fst).Nodup) :
    alookup l.reverse k = alookup l k := by
  induction l with
  | nil => rfl
  | cons kv t ih =>
      simp only [List.map_cons, List.nodup_cons] at h
      rw [List.reverse_cons, alookup_append]
      by_cases hk : k = kv.1
      · subst hk
        have hnone : alookup t.reverse kv.1 = none := by
          apply alookup_eq_none_of_not_mem
          rw [List.map_reverse, List.mem_reverse]
          exact h.1
        simp [hnone, alookup]
      · simp [alookup, hk, ofirst_none_right, ih h.2]

/-- Lookup through the insert-in-order map builder: the last binding of the
inserted list wins, then whatever the seed map held. -/
theorem alookup_foldl_aset {α β : Type} [DecidableEq α]
    (l : List (α × β)) (m0 : List (α × β)) (k : α) :
    alookup (l.foldl (fun m kv => aset m kv.1 kv.2) m0) k
      = ofirst (alookup l.reverse k) (alookup m0 k) := by
  induction l generalizing m0 with
  | nil => rfl
  | cons kv t ih =>
      rw [List.foldl_cons, ih, List.reverse_cons, alookup_append]
      by_cases hk : k = kv.1
      · cases hres : alookup t.reverse k <;>
          simp [alookup, hk, alookup_aset_self, hres]
      · cases hres : alookup t.reverse k <;>
          simp [alookup, hk, alookup_aset_ne _ _ _ _ hk, hres, ofirst_none_right]

theorem alookup_build_map {α β : Type} [DecidableEq α]
    (l : List (α × β)) (k : α) :
    alookup (build_map l) k = alookup l.reverse k := by
  rw [build_map, alookup_foldl_aset]
  exact ofirst_none_right _

/-- The function `List.filterMap` keeps full length exactly when no element is dropped. -/
theorem filterMap_full_length_iff {α β : Type} (f : α → Option β) (l : List α) :
    (l.filterMap f).length = l.length ↔ ∀ a ∈ l, (f a).isSome := by
  induction l with
  | nil => simp
  | cons x t ih =>
      cases hfx : f x with
      | none =>
          simp only [List.filterMap_cons, hfx, List.length_cons]
          constructor
          · intro h
            have := List.length_filterMap_le f t
            omega
          · intro h
            have := h x (List.mem_cons_self x t)
            rw [hfx] at this
            exact absurd this (by simp)
      | some b =>
          simp [List.filterMap_cons, hfx, ih]

/-- When nothing is dropped, `filterMap` pairs its output positionally with
its input: zipping the request list with the result list recovers each
lookup. -/
theorem filterMap_zip_of_all_isSome {α β : Type} (f : α → Option β) (l : List α)
    (h : ∀ a ∈ l, (f a).isSome) :
    ∀ p ∈ l.zip (l.filterMap f), f p.1 = some p.2 := by
  induction l with
  | nil => intro p hp; simp at hp
  | cons x t ih =>
      cases hfx : f x with
      | none =>
          have := h x (List.mem_cons_self x t)
          rw [hfx] at this
          exact absurd this (by simp)
      | some b =>
          intro p hp
          rw [List.filterMap_cons, hfx] at hp
          rcases List.mem_cons.mp hp with hp1 | hp2
          · rw [hp1]; exact hfx
          · exact ih (fun a ha => h a (List.mem_cons_of_mem x ha)) p hp2

/-- Integers already inside the i64 range are fixed by the wrap. -/
theorem i64_wrap_eq_self (x : Int) (h1 : -(2 ^ 63) ≤ x) (h2 : x < 2 ^ 63) :
    i64_wrap x = x := by
  rw [i64_wrap, Int.emod_eq_of_lt (by omega) (by omega)]
  omega

/-- The delta the undo pipeline applies to the to-account,
`0i64 - (outgoing_amount as i64)`, is exactly `-outgoing_amount` for every
amount up to and including `2^63` (at exactly `2^63` the two wraps cancel). -/
theorem undo_to_delta_eq_neg (n : Nat) (hn : n ≤ 2 ^ 63) :
    i64_wrap (0 - u64_as_i64 n) = -(n : Int) := by
  rcases Nat.lt_or_ge n (2 ^ 63) with h | h
  · rw [u64_as_i64, if_pos h]
    have h0 : (0 : Int) - (n : Int) = -(n : Int) := by ring
    rw [h0]
    apply i64_wrap_eq_self <;> omega
  · have hn' : n = 2 ^ 63 := le_antisymm hn h
    subst hn'
    rw [u64_as_i64, if_neg (by omega)]
    rw [i64_wrap]
    norm_num

/-- The delta the undo pipeline applies to the from-account is the cast
amount itself: the amount for values below `2^63`, and the amount minus
`2^64` (a negative number) above. -/
theorem undo_from_delta (m : Nat) :
    (m < 2 ^ 63 → u64_as_i64 m = (m : Int))
    ∧ (2 ^ 63 ≤ m → u64_as_i64 m = (m : Int) - 2 ^ 64) := by
  constructor
  · intro h; rw [u64_as_i64, if_pos h]
  · intro h; rw [u64_as_i64, if_neg (by omega)]

/-- A concrete registered account used by witnesses: id 0, asset "USD",
minimum balance 0, all three credentials present. -/
def acctA : Account :=
  ⟨0, "USD", some 0, none, "g.a", some ("btp-token-a"), some ("http-token-a"),
   some ("xrp-addr-a"), false⟩

/-- A second concrete account: id 1, asset "USD", no minimum balance. -/
def acctB : Account := ⟨1, "USD", none, some 5, "g.b", none, none, none, false⟩

/-- A concrete store holding `acctA` (balance 1000) and `acctB` (balance 0),
their index entries, and a counter that has issued ids 0 and 1. -/
def store0 : RedisStore :=
  ⟨[(0, acctA), (1, acctB)],
   [(("usd", 0), 1000), (("usd", 1), 0)],
   [("btp-token-a", 0)], [("http-token-a", 0)], [("xrp-addr-a", 0)],
   [], [("g.a", 0), ("g.b", 1)], [], some 2, []⟩

/-- A store on which nothing was ever written: every hash empty and the
`next_account_id` key never created. -/
def empty_store : RedisStore := ⟨[], [], [], [], [], [], [], [], none, []⟩

/-- C9: on a store where no account was ever registered — the id-allocation
counter key absent — `get_all_accounts` fails (the nil counter reply cannot
be parsed as an unsigned integer) rather than returning the empty list. -/
theorem get_all_accounts_fails_on_fresh_store (s : RedisStore)
    (h : s.next_account_id = none) : get_all_accounts s = .error .nilCounter := by
  rw [get_all_accounts, h]

theorem get_all_accounts_fails_on_fresh_store_witness :
    empty_store.next_account_id = none
    ∧ get_all_accounts empty_store = .error .nilCounter :=
  ⟨rfl, get_all_accounts_fails_on_fresh_store empty_store rfl⟩

/-- C4: `get_accounts` succeeds, with one record per requested id in request
order, exactly when every requested id resolves to an existing record; if
any requested id is missing the whole call fails with `countMismatch` and no
partial result. -/
theorem get_accounts_all_or_nothing (s : RedisStore) (account_ids : List Nat) :
    ((∀ i ∈ account_ids, (alookup s.accounts i).isSome) →
      ∃ accounts, get_accounts s account_ids = .ok accounts
        ∧ accounts.length = account_ids.length
        ∧ ∀ p ∈ account_ids.zip accounts, alookup s.accounts p.1 = some p.2)
    ∧ ((∃ i ∈ account_ids, alookup s.accounts i = none) →
      get_accounts s account_ids = .error .countMismatch) := by
  constructor
  · intro hall
    refine ⟨account_ids.filterMap (fun i => alookup s.accounts i), ?_, ?_, ?_⟩
    · simp [get_accounts, (filterMap_full_length_iff _ _).mpr hall]
    · exact (filterMap_full_length_iff _ _).mpr hall
    · exact filterMap_zip_of_all_isSome _ _ hall
  · rintro ⟨i, hi, hnone⟩
    have hnot : ¬ ∀ a ∈ account_ids, (alookup s.accounts a).isSome := by
      intro hall
      have := hall i hi
      rw [hnone] at this
      exact absurd this (by simp)
    rw [get_accounts, if_neg]
    intro hlen
    exact hnot ((filterMap_full_length_iff _ _).mp hlen)

theorem get_accounts_all_or_nothing_witness :
    get_accounts store0 [1, 99] = .error .countMismatch :=
  (get_accounts_all_or_nothing store0 [1, 99]).2 ⟨99, by decide, by decide⟩

/-- C5: `get_exchange_rates` reads only the in-process rate cache — the
backend connection is not even an input of the function — and succeeds, with
the cached rate of each requested code in request order, exactly when every
requested code has a cached rate; one missing code fails the whole call with
no partial result.  The rate payload stays abstract. -/
theorem get_exchange_rates_cache_only_all_or_nothing {ρ : Type}
    (exchange_rates : List (String × ρ)) (asset_codes : List String) :
    ((∀ code ∈ asset_codes, (alookup exchange_rates code).isSome) →
      ∃ rates, get_exchange_rates exchange_rates asset_codes = .ok rates
        ∧ rates.length = asset_codes.length
        ∧ ∀ p ∈ asset_codes.zip rates, alookup exchange_rates p.1 = some p.2)
    ∧ ((∃ code ∈ asset_codes, alookup exchange_rates code = none) →
      get_exchange_rates exchange_rates asset_codes = .error ()) := by
  constructor
  · intro hall
    refine ⟨asset_codes.filterMap (fun code => alookup exchange_rates code), ?_, ?_, ?_⟩
    · simp [get_exchange_rates, (filterMap_full_length_iff _ _).mpr hall]
    · exact (filterMap_full_length_iff _ _).mpr hall
    · exact filterMap_zip_of_all_isSome _ _ hall
  · rintro ⟨code, hc, hnone⟩
    have hnot : ¬ ∀ c ∈ asset_codes, (alookup exchange_rates c).isSome := by
      intro hall
      have := hall code hc
      rw [hnone] at this
      exact absurd this (by simp)
    rw [get_exchange_rates, if_neg]
    intro hlen
    exact hnot ((filterMap_full_length_iff _ _).mp hlen)

theorem get_exchange_rates_cache_only_all_or_nothing_witness :
    get_exchange_rates [("USD", (10 : Int)), ("EUR", 9)] ["USD", "GBP"]
      = .error () :=
  (get_exchange_rates_cache_only_all_or_nothing
    [("USD", (10 : Int)), ("EUR", 9)] ["USD", "GBP"]).2 ⟨"GBP", by decide, by decide⟩

/-- A concrete store whose backend dynamic table binds "g.eu" to account 3
while the static table binds it to account 7, with a stale entry sitting in
the in-process cache. -/
def store_routes : RedisStore :=
  ⟨[], [], [], [], [], [], [("g.eu", 3)], [("g.eu", 7)], some 0, [("stale", 42)]⟩

/-- C6: after a routing-cache refresh (`update_routes`), a prefix bound by
the static table resolves in the merged in-process table to the static
table's account id even when the dynamic table also binds it, and the
refresh replaces the whole cached table — the cache contents before the
refresh are irrelevant to its contents after.  (The `Nodup` hypothesis says
the static list stands for a Redis hash, whose fields are distinct.) -/
theorem update_routes_static_precedence (s : RedisStore) (pfx : String)
    (static_id dynamic_id : Nat)
    (hnd : (s.static_routes.map Prod.fst).Nodup)
    (hstatic : alookup s.static_routes pfx = some static_id)
    (_hdyn : alookup s.routes pfx = some dynamic_id) :
    alookup (routing_table (update_routes s)) pfx = some static_id
    ∧ ∀ cache, (update_routes { s with routes_cache := cache }).routes_cache
        = (update_routes s).routes_cache := by
  constructor
  · show alookup (build_map (s.routes ++ s.static_routes)) pfx = some static_id
    rw [alookup_build_map, List.reverse_append, alookup_append,
      alookup_reverse_of_nodup_keys _ _ hnd, hstatic]
    rfl
  · intro cache
    rfl

theorem update_routes_static_precedence_witness :
    alookup (routing_table (update_routes store_routes)) "g.eu" = some 7 :=
  (update_routes_static_precedence store_routes ("g.eu") 7 3
    (by decide) (by decide) (by decide)).1

/-- C7: both static-route writers verify that every referenced account id
exists before writing anything: when one is missing the call fails with
`accountNotFound` and returns the store exactly as it was, so the static
route table (and everything else) is unchanged. -/
theorem set_static_route_checks_account_exists :
    (∀ (s : RedisStore) (pfx : String) (account_id : Nat),
      alookup s.accounts account_id = none →
      set_static_route s pfx account_id = (.error .accountNotFound, s))
    ∧ (∀ (s : RedisStore) (routes : List (String × Nat)),
      (∃ route ∈ routes, alookup s.accounts route.2 = none) →
      set_static_routes s routes = (.error .accountNotFound, s)) := by
  constructor
  · intro s pfx account_id h
    simp [set_static_route, h]
  · rintro s routes ⟨route, hmem, hnone⟩
    have hfalse : ((routes.map (fun route => route.2)).dedup.all
        (fun i => (alookup s.accounts i).isSome)) = false := by
      rcases hb : ((routes.map (fun route => route.2)).dedup.all
          (fun i => (alookup s.accounts i).isSome)) with _ | _
      · exact hb
      · rw [List.all_eq_true] at hb
        have hm : route.2 ∈ (routes.map (fun route => route.2)).dedup :=
          List.mem_dedup.mpr (List.mem_map_of_mem _ hmem)
        have := hb _ hm
        rw [hnone] at this
        exact absurd this (by simp)
    simp [set_static_routes, hfalse]

theorem set_static_route_checks_account_exists_witness :
    set_static_route empty_store ("g.eu.bank") 999 = (.error .accountNotFound, empty_store)
    ∧ set_static_routes store0 [("g.x", 0), ("g.y", 999)]
        = (.error .accountNotFound, store0) :=
  ⟨set_static_route_checks_account_exists.1 empty_store ("g.eu.bank") 999 (by decide),
   set_static_route_checks_account_exists.2 store0 [("g.x", 0), ("g.y", 999)]
     ⟨("g.y", 999), by decide, by decide⟩⟩

/-- C1 (amended): `update_balances`, on a from-account whose balance field
is present, restricted to the window where the Lua doubles are exact — both
amounts exactly representable (`fl`-fixed) and below the `10^17` `%.17g`
argument bound, the from-balance, the configured `min_balance` and its sum
with the amount exactly representable, the two slots distinct, and both
resulting balances within int64: when the stored record has a `min_balance`
and the current balance is below `min_balance + incoming_amount`, the call
fails with the script's insufficient-balance error and the store is exactly
unchanged; otherwise it succeeds, decrementing the from-slot by
`incoming_amount` and incrementing the to-slot by `outgoing_amount` in
their respective asset ledgers and touching no other slot; and the outcome
never depends on the to-account's `max_balance`.  Outside that window the
original claim fails: amounts at or above `2^53` apply a rounded delta (see
the counterexample) and deltas at or above `10^17` error the `EVAL`. -/
theorem update_balances_min_balance_guard (s : RedisStore)
    (from_account to_account : Account) (incoming_amount outgoing_amount : Nat)
    (bf : Int)
    (hbal : get_balance s from_account = some bf)
    (hne : balance_slot from_account.asset_code from_account.id
        ≠ balance_slot to_account.asset_code to_account.id)
    (hm_exact : fl (incoming_amount : Int) = (incoming_amount : Int))
    (hm_small : (incoming_amount : Int) < 10 ^ 17)
    (hn_exact : fl (outgoing_amount : Int) = (outgoing_amount : Int))
    (hn_small : (outgoing_amount : Int) < 10 ^ 17)
    (hbf_exact : fl bf = bf)
    (hfrom_lo : -(2 ^ 63) ≤ bf - (incoming_amount : Int))
    (hfrom_hi : bf ≤ 2 ^ 63 - 1)
    (hto_lo : -(2 ^ 63) ≤ (alookup s.balances
        (balance_slot to_account.asset_code to_account.id)).getD 0)
    (hto_hi : (alookup s.balances
        (balance_slot to_account.asset_code to_account.id)).getD 0
        + (outgoing_amount : Int) ≤ 2 ^ 63 - 1) :
    ((∃ mb, (alookup s.accounts from_account.id).bind Account.min_balance = some mb
        ∧ fl mb = mb
        ∧ fl (mb + (incoming_amount : Int)) = mb + (incoming_amount : Int)
        ∧ bf < mb + (incoming_amount : Int)) →
      update_balances s from_account incoming_amount to_account outgoing_amount
        = (.error .insufficientBalance, s))
    ∧ ((∀ mb, (alookup s.accounts from_account.id).bind Account.min_balance = some mb →
          fl mb = mb
          ∧ fl (mb + (incoming_amount : Int)) = mb + (incoming_amount : Int)
          ∧ mb + (incoming_amount : Int) ≤ bf) →
      ∃ from_balance to_balance s',
        update_balances s from_account incoming_amount to_account outgoing_amount
          = (.ok (from_balance, to_balance), s')
        ∧ from_balance = bf - (incoming_amount : Int)
        ∧ to_balance = (alookup s.balances
            (balance_slot to_account.asset_code to_account.id)).getD 0
            + (outgoing_amount : Int)
        ∧ (∀ k, k ≠ balance_slot from_account.asset_code from_account.id →
            k ≠ balance_slot to_account.asset_code to_account.id →
            alookup s'.balances k = alookup s.balances k)
        ∧ alookup s'.balances (balance_slot from_account.asset_code from_account.id)
            = some (bf - (incoming_amount : Int))
        ∧ alookup s'.balances (balance_slot to_account.asset_code to_account.id)
            = some ((alookup s.balances
                (balance_slot to_account.asset_code to_account.id)).getD 0
                + (outgoing_amount : Int)))
    ∧ (∀ mx, update_balances s from_account incoming_amount
          { to_account with max_balance := mx } outgoing_amount
        = update_balances s from_account incoming_amount to_account outgoing_amount) := by
  rw [get_balance] at hbal
  have habs_m : |(0 : Int) - (incoming_amount : Int)| = (incoming_amount : Int) := by
    rw [zero_sub, abs_neg, abs_of_nonneg (by positivity)]
  have habs_n : |(outgoing_amount : Int)| = (outgoing_amount : Int) :=
    abs_of_nonneg (by positivity)
  refine ⟨?_, ?_, fun mx => rfl⟩
  · rintro ⟨mb, hmb, hmbx, hsumx, hlt⟩
    simp only [update_balances, update_balances_script, hmb, hbal, hm_exact]
    rw [hbf_exact, hmbx, hsumx, if_pos hlt]
  · intro hok
    have main : update_balances s from_account incoming_amount to_account
          outgoing_amount =
        (.ok (bf + (0 - (incoming_amount : Int)),
          (alookup s.balances
            (balance_slot to_account.asset_code to_account.id)).getD 0
            + (outgoing_amount : Int)),
         { s with balances := (aset
              (aset s.balances
                (balance_slot from_account.asset_code from_account.id)
                (bf + (0 - (incoming_amount : Int))))
              (balance_slot to_account.asset_code to_account.id)
              ((alookup s.balances
                (balance_slot to_account.asset_code to_account.id)).getD 0
                + (outgoing_amount : Int))) }) →
        ∃ from_balance to_balance s',
        update_balances s from_account incoming_amount to_account outgoing_amount
          = (.ok (from_balance, to_balance), s')
        ∧ from_balance = bf - (incoming_amount : Int)
        ∧ to_balance = (alookup s.balances
            (balance_slot to_account.asset_code to_account.id)).getD 0
            + (outgoing_amount : Int)
        ∧ (∀ k, k ≠ balance_slot from_account.asset_code from_account.id →
            k ≠ balance_slot to_account.asset_code to_account.id →
            alookup s'.balances k = alookup s.balances k)
        ∧ alookup s'.balances (balance_slot from_account.asset_code from_account.id)
            = some (bf - (incoming_amount : Int))
        ∧ alookup s'.balances (balance_slot to_account.asset_code to_account.id)
            = some ((alookup s.balances
                (balance_slot to_account.asset_code to_account.id)).getD 0
                + (outgoing_amount : Int)) := by
      intro hupd
      refine ⟨_, _, _, hupd, ?_, rfl, ?_, ?_, ?_⟩
      · omega
      · intro k hk1 hk2
        rw [alookup_aset_ne _ _ _ _ hk2, alookup_aset_ne _ _ _ _ hk1]
      · rw [alookup_aset_ne _ _ _ _ hne, alookup_aset_self]
        congr 1
        omega
      · rw [alookup_aset_self]
    cases hmb : (alookup s.accounts from_account.id).bind Account.min_balance with
    | none =>
        apply main
        simp only [update_balances, update_balances_script, hincrby, hmb, hbal,
          Option.getD_some, hm_exact, hn_exact]
        rw [alookup_aset_ne _ _ _ _ (Ne.symm hne)]
        rw [if_neg (by rw [habs_m]; omega), if_neg (by omega),
          if_neg (by rw [habs_n]; omega), if_neg (by omega)]
    | some mb =>
        obtain ⟨hmbx, hsumx, hle⟩ := hok mb hmb
        apply main
        simp only [update_balances, update_balances_script, hincrby, hmb, hbal,
          Option.getD_some, hm_exact, hn_exact]
        rw [hbf_exact, hmbx, hsumx, if_neg (not_lt.mpr hle)]
        rw [alookup_aset_ne _ _ _ _ (Ne.symm hne)]
        rw [if_neg (by rw [habs_m]; omega), if_neg (by omega),
          if_neg (by rw [habs_n]; omega), if_neg (by omega)]

theorem update_balances_min_balance_guard_witness :
    update_balances store0 acctA 1500 acctB 1500 = (.error .insufficientBalance, store0) :=
  (update_balances_min_balance_guard store0 acctA acctB 1500 1500 1000
    (by decide) (by decide) (by decide) (by decide) (by decide) (by decide)
    (by decide) (by decide) (by decide) (by decide) (by decide)).1
    ⟨0, by decide, by decide, by decide, by decide⟩

/-- C1 counterexample: at `incoming_amount = 2^53 + 1` the original claim's
exact decrement does not happen on the code: Lua's `tonumber` rounds the
amount to the double `2^53`, so the call succeeds (acctB has no minimum
configured) but debits `2^53`, leaving acctB's balance at `-(2^53)` instead
of the claimed `-(2^53 + 1)`. -/
theorem update_balances_rounds_large_amounts :
    (update_balances store0 acctB (2 ^ 53 + 1) acctA 1).1 = .ok (-(2 ^ 53), 1001)
    ∧ get_balance store0 acctB = some 0
    ∧ get_balance (update_balances store0 acctB (2 ^ 53 + 1) acctA 1).2 acctB
        = some (-(2 ^ 53))
    ∧ (-(2 ^ 53) : Int) ≠ 0 - (2 ^ 53 + 1) := by decide

/-- Pointwise description of one `HINCRBY`. -/
theorem hincrby_lookup (l : List ((String × Nat) × Int)) (k q : String × Nat) (d : Int) :
    alookup (hincrby l k d).2 q
      = if q = k then some ((alookup l k).getD 0 + d) else alookup l q := by
  rw [hincrby]
  by_cases h : q = k
  · subst h
    rw [if_pos rfl, alookup_aset_self]
  · rw [if_neg h, alookup_aset_ne _ _ _ _ h]

/-- A pair of `HINCRBY`s followed by the inverse pair leaves every slot's
lookup unchanged, provided both slots held a value to begin with. -/
theorem hincrby_roundtrip_lookup (L : List ((String × Nat) × Int))
    (fk tk q : String × Nat) (a b fb tb : Int)
    (hfb : alookup L fk = some fb) (htb : alookup L tk = some tb) :
    alookup (hincrby (hincrby (hincrby (hincrby L fk (0 - a)).2 tk b).2
        fk a).2 tk (-b)).2 q = alookup L q := by
  simp only [hincrby_lookup]
  split_ifs
  · rename_i h1 h2 h3
    subst h1
    subst h2
    rw [hfb]
    simp only [Option.getD_some]
    congr 1
    ring
  · rename_i h1 h2 h3
    exact absurd h2.symm h3
  · rename_i h1 h2
    subst h1
    rw [htb]
    simp only [Option.getD_some]
    congr 1
    ring
  · rename_i h1 h2 h3 h4
    exact absurd (h2.trans h3) h1
  · rename_i h1 h2 h3 h4
    exact absurd h3.symm h4
  · rename_i h1 h2 h3
    subst h2
    rw [hfb]
    simp only [Option.getD_some]
    congr 1
    ring
  · rfl

/-- Whenever the `UPDATE_BALANCES` script succeeds it has performed exactly
its two `HINCRBY`s with the double-valued deltas — the guard and error
branches differ only in failing. -/
theorem update_balances_ok_balances (s : RedisStore) (A B : Account) (m n : Nat)
    (v : Int × Int) (s' : RedisStore)
    (hok : update_balances s A m B n = (.ok v, s')) :
    s'.balances
      = (hincrby (hincrby s.balances (balance_slot A.asset_code A.id)
          (0 - fl (m : Int))).2 (balance_slot B.asset_code B.id) (fl (n : Int))).2
    ∧ s'.accounts = s.accounts := by
  simp only [update_balances, update_balances_script] at hok
  split at hok
  all_goals try split at hok
  all_goals try split at hok
  all_goals try split at hok
  all_goals try split at hok
  all_goals try split at hok
  all_goals try split at hok
  all_goals simp only [Prod.mk.injEq] at hok
  all_goals obtain ⟨hv, hs⟩ := hok
  all_goals first
    | exact Except.noConfusion hv
    | (refine ⟨?_, ?_⟩ <;> rw [← hs])

/-- C2 (amended): for amounts that are exactly double-representable
(`fl`-fixed, so the Lua side of the transfer applies them exactly — in
particular any amount below `2^53`), with the incoming amount below `2^63`
and the outgoing amount at most `2^63` (so the undo's `as i64` casts do not
wrap), running `undo_balance_update` right after a successful
`update_balances` with the same accounts and amounts restores every balance
slot to its pre-transfer value; and the undo performs no minimum- or
maximum-balance check — its result ignores both bounds on both accounts (it
is an unconditional pipeline).  Outside those bounds the round trip fails:
at `2^53 + 1` the update debits the rounded `2^53` while the undo credits
the exact amount back (see the counterexample). -/
theorem undo_roundtrip_restores_balances (s : RedisStore) (A B : Account)
    (m n : Nat)
    (hm_exact : fl (m : Int) = (m : Int)) (hm : m < 2 ^ 63)
    (hn_exact : fl (n : Int) = (n : Int)) (hn : n ≤ 2 ^ 63)
    (fb tb : Int)
    (hfb : get_balance s A = some fb) (htb : get_balance s B = some tb)
    (v : Int × Int) (s' : RedisStore)
    (hok : update_balances s A m B n = (.ok v, s')) :
    (∀ k, alookup (undo_balance_update s' A m B n).balances k
        = alookup s.balances k)
    ∧ ∀ (s0 : RedisStore) (mn mx mn' mx' : Option Int),
        undo_balance_update s0 { A with min_balance := mn, max_balance := mx } m
          { B with min_balance := mn', max_balance := mx' } n
        = undo_balance_update s0 A m B n := by
  refine ⟨?_, fun s0 mn mx mn' mx' => rfl⟩
  have hbal2 := (update_balances_ok_balances s A B m n v s' hok).1
  rw [hm_exact, hn_exact] at hbal2
  rw [get_balance] at hfb htb
  have hdm : u64_as_i64 m = (m : Int) := (undo_from_delta m).1 hm
  have hdn : i64_wrap (0 - u64_as_i64 n) = -(n : Int) := undo_to_delta_eq_neg n hn
  intro k
  show alookup (hincrby (hincrby s'.balances
      (balance_slot A.asset_code A.id) (u64_as_i64 m)).2
      (balance_slot B.asset_code B.id) (i64_wrap (0 - u64_as_i64 n))).2 k
    = alookup s.balances k
  rw [hbal2, hdm, hdn]
  exact hincrby_roundtrip_lookup s.balances _ _ k _ _ fb tb hfb htb

theorem undo_roundtrip_restores_balances_witness :
    alookup (undo_balance_update
        ⟨[(0, acctA), (1, acctB)],
         [(("usd", 0), 800), (("usd", 1), 200)],
         [("btp-token-a", 0)], [("http-token-a", 0)], [("xrp-addr-a", 0)],
         [], [("g.a", 0), ("g.b", 1)], [], some 2, []⟩
        acctA 200 acctB 200).balances (("usd", 0) : String × Nat)
      = alookup store0.balances (("usd", 0) : String × Nat) :=
  (undo_roundtrip_restores_balances store0 acctA acctB 200 200
    (by decide) (by decide) (by decide) (by decide) 1000 0 (by decide) (by decide)
    (800, 200)
    ⟨[(0, acctA), (1, acctB)],
     [(("usd", 0), 800), (("usd", 1), 200)],
     [("btp-token-a", 0)], [("http-token-a", 0)], [("xrp-addr-a", 0)],
     [], [("g.a", 0), ("g.b", 1)], [], some 2, []⟩
    (by decide)).1 ("usd", 0)

/-- C2 counterexample: at `incoming_amount = 2^53 + 1` (well below `2^63`)
the claimed round-trip identity fails on the code: `update_balances` with
`m = 2^53 + 1` out of acctB succeeds (acctB has no minimum configured) but
debits only the Lua-double-rounded `2^53`, while the immediate
`undo_balance_update` with the same arguments credits back the exact
`2^53 + 1` through the Rust pipeline's exact i64 argument — so acctB's
balance, 0 before the transfer, reads 1 after the round trip. -/
theorem undo_roundtrip_fails_on_rounded_amount :
    (update_balances store0 acctB (2 ^ 53 + 1) acctA 200).1 = .ok (-(2 ^ 53), 1200)
    ∧ get_balance store0 acctB = some 0
    ∧ get_balance (undo_balance_update
        (update_balances store0 acctB (2 ^ 53 + 1) acctA 200).2
        acctB (2 ^ 53 + 1) acctA 200) acctB = some 1 := by decide

/-- C10 (amended): `undo_balance_update` applies `incoming_amount as i64` to
the from-slot and `0i64 - (outgoing_amount as i64)` to the to-slot.  Below
`2^63` both applied deltas are exactly the requested `+incoming` and
`-outgoing`.  At or above `2^63` the casts wrap: the from-delta becomes
`incoming - 2^64`, never the requested amount; the to-delta differs from the
requested `-outgoing` for every `outgoing` strictly between `2^63` and
`2^64`, but at exactly `outgoing = 2^63` the two wraps cancel and the
applied delta equals the requested `-2^63`. -/
theorem undo_deltas_signed_cast (s : RedisStore) (A B : Account) (m n : Nat)
    (hne : balance_slot A.asset_code A.id ≠ balance_slot B.asset_code B.id) :
    alookup (undo_balance_update s A m B n).balances
        (balance_slot A.asset_code A.id)
      = some ((alookup s.balances (balance_slot A.asset_code A.id)).getD 0
          + u64_as_i64 m)
    ∧ alookup (undo_balance_update s A m B n).balances
        (balance_slot B.asset_code B.id)
      = some ((alookup s.balances (balance_slot B.asset_code B.id)).getD 0
          + i64_wrap (0 - u64_as_i64 n))
    ∧ (m < 2 ^ 63 → u64_as_i64 m = (m : Int))
    ∧ (n < 2 ^ 63 → i64_wrap (0 - u64_as_i64 n) = -(n : Int))
    ∧ (2 ^ 63 ≤ m → u64_as_i64 m ≠ (m : Int))
    ∧ (2 ^ 63 < n → n < 2 ^ 64 → i64_wrap (0 - u64_as_i64 n) ≠ -(n : Int))
    ∧ (n = 2 ^ 63 → i64_wrap (0 - u64_as_i64 n) = -(n : Int)) := by
  refine ⟨?_, ?_, fun h => (undo_from_delta m).1 h,
    fun h => undo_to_delta_eq_neg n (le_of_lt h), ?_, ?_,
    fun h => undo_to_delta_eq_neg n (le_of_eq h)⟩
  · show alookup (hincrby (hincrby s.balances
        (balance_slot A.asset_code A.id) (u64_as_i64 m)).2
        (balance_slot B.asset_code B.id) (i64_wrap (0 - u64_as_i64 n))).2
        (balance_slot A.asset_code A.id) = _
    rw [hincrby_lookup, if_neg hne, hincrby_lookup, if_pos rfl]
  · show alookup (hincrby (hincrby s.balances
        (balance_slot A.asset_code A.id) (u64_as_i64 m)).2
        (balance_slot B.asset_code B.id) (i64_wrap (0 - u64_as_i64 n))).2
        (balance_slot B.asset_code B.id) = _
    rw [hincrby_lookup, if_pos rfl, hincrby_lookup, if_neg (Ne.symm hne)]
  · intro h
    rw [u64_as_i64, if_neg (by omega)]
    omega
  · intro h1 h2
    rw [u64_as_i64, if_neg (by omega)]
    have : (0 : Int) - ((n : Int) - 2 ^ 64) = 2 ^ 64 - (n : Int) := by ring
    rw [this, i64_wrap_eq_self _ (by omega) (by omega)]
    omega

theorem undo_deltas_signed_cast_witness :
    alookup (undo_balance_update store0 acctA 5 acctB 7).balances
        (balance_slot acctA.asset_code acctA.id)
      = some ((alookup store0.balances
          (balance_slot acctA.asset_code acctA.id)).getD 0 + u64_as_i64 5) :=
  (undo_deltas_signed_cast store0 acctA acctB 5 7 (by decide)).1

/-- C10 counterexample: at `outgoing_amount = 2^63` — an amount at which the
claim asserts the applied delta is not the requested one — the applied
to-delta is exactly the requested `-(2^63)`: acctB's balance goes from 0 to
`-(2^63)`. -/
theorem undo_to_delta_exact_at_pow63 :
    2 ^ 63 ≤ (2 ^ 63 : Nat)
    ∧ get_balance store0 acctB = some 0
    ∧ get_balance (undo_balance_update store0 acctA 0 acctB (2 ^ 63)) acctB
        = some (0 - 2 ^ 63) := by decide

/-- C3: a registration that collides with existing state fails with a
Conflict naming the first colliding field in the fixed precedence order —
the id-derived record/balance slot (both reported as "ID"), then the BTP
token, then the HTTP token, then the settlement (XRP) address — and the
store it leaves behind is exactly the initial store with the id counter
already bumped: no balance, index, route, broadcast-set or account-record
state of the rejected registration is written. -/
theorem insert_account_conflict_first_field (s : RedisStore) (d : AccountDetails) :
    ((alookup s.accounts (get_next_account_id s).1).isSome
        ∨ (alookup s.balances
            (balance_slot d.asset_code (get_next_account_id s).1)).isSome →
      insert_account s d = (.error (.conflict ("ID")), (get_next_account_id s).2))
    ∧ (alookup s.accounts (get_next_account_id s).1 = none →
      alookup s.balances (balance_slot d.asset_code (get_next_account_id s).1)
          = none →
      ∀ t, d.btp_incoming_authorization = some t →
      (alookup s.btp_auth t).isSome →
      insert_account s d = (.error (.conflict ("BTP auth")), (get_next_account_id s).2))
    ∧ (alookup s.accounts (get_next_account_id s).1 = none →
      alookup s.balances (balance_slot d.asset_code (get_next_account_id s).1)
          = none →
      (∀ t, d.btp_incoming_authorization = some t → alookup s.btp_auth t = none) →
      ∀ t, d.http_incoming_authorization = some t →
      (alookup s.http_auth t).isSome →
      insert_account s d = (.error (.conflict ("HTTP auth")), (get_next_account_id s).2))
    ∧ (alookup s.accounts (get_next_account_id s).1 = none →
      alookup s.balances (balance_slot d.asset_code (get_next_account_id s).1)
          = none →
      (∀ t, d.btp_incoming_authorization = some t → alookup s.btp_auth t = none) →
      (∀ t, d.http_incoming_authorization = some t → alookup s.http_auth t = none) →
      ∀ t, d.xrp_address = some t →
      (alookup s.xrp_addresses t).isSome →
      insert_account s d = (.error (.conflict ("XRP address")), (get_next_account_id s).2)) := by
  refine ⟨?_, ?_, ?_, ?_⟩
  · intro h
    rcases hb1 : (alookup s.accounts (get_next_account_id s).1).isSome with _ | _
    · have hb2 : (alookup s.balances
          (balance_slot d.asset_code (get_next_account_id s).1)).isSome = true := by
        rcases h with h | h
        · rw [hb1] at h
          exact absurd h (by simp)
        · exact h
      simp only [get_next_account_id, Nat.add_sub_cancel] at hb1 hb2
      simp [insert_account, get_next_account_id, Account.try_from, hb1, hb2,
        List.find?]
    · simp only [get_next_account_id, Nat.add_sub_cancel] at hb1
      simp [insert_account, get_next_account_id, Account.try_from, hb1,
        List.find?]
  · intro h1 h2 t ht hbt
    simp only [get_next_account_id, Nat.add_sub_cancel] at h1 h2
    simp [insert_account, get_next_account_id, Account.try_from, h1, h2, ht, hbt,
      List.find?]
  · intro h1 h2 hbn t ht hht
    simp only [get_next_account_id, Nat.add_sub_cancel] at h1 h2
    cases hbo : d.btp_incoming_authorization with
    | none =>
        simp [insert_account, get_next_account_id, Account.try_from, h1, h2, hbo,
          ht, hht, List.find?]
    | some t0 =>
        have hb0 := hbn t0 hbo
        simp [insert_account, get_next_account_id, Account.try_from, h1, h2, hbo,
          hb0, ht, hht, List.find?]
  · intro h1 h2 hbn hhn t ht hxt
    simp only [get_next_account_id, Nat.add_sub_cancel] at h1 h2
    cases hbo : d.btp_incoming_authorization with
    | none =>
        cases hho : d.http_incoming_authorization with
        | none =>
            simp [insert_account, get_next_account_id, Account.try_from, h1, h2,
              hbo, hho, ht, hxt, List.find?]
        | some t1 =>
            have hh1 := hhn t1 hho
            simp [insert_account, get_next_account_id, Account.try_from, h1, h2,
              hbo, hho, hh1, ht, hxt, List.find?]
    | some t0 =>
        have hb0 := hbn t0 hbo
        cases hho : d.http_incoming_authorization with
        | none =>
            simp [insert_account, get_next_account_id, Account.try_from, h1, h2,
              hbo, hb0, hho, ht, hxt, List.find?]
        | some t1 =>
            have hh1 := hhn t1 hho
            simp [insert_account, get_next_account_id, Account.try_from, h1, h2,
              hbo, hb0, hho, hh1, ht, hxt, List.find?]

/-- A registration whose BTP token repeats `acctA`'s. -/
def d_conflict : AccountDetails :=
  ⟨"USD", none, none, "g.c", some ("btp-token-a"), none, none, false⟩

theorem insert_account_conflict_first_field_witness :
    insert_account store0 d_conflict
      = (.error (.conflict ("BTP auth")), (get_next_account_id store0).2) :=
  (insert_account_conflict_first_field store0 d_conflict).2.1
    (by decide) (by decide) "btp-token-a" rfl (by decide)

/-- A successful `insert_account` hands out exactly the pre-call counter
value (the post-increment value minus one) as the id and leaves the counter
at the post-increment value. -/
theorem insert_account_ok_id (s : RedisStore) (d : AccountDetails) (a : Account)
    (s1 : RedisStore) (h : insert_account s d = (.ok a, s1)) :
    a.id = s.next_account_id.getD 0
    ∧ s1.next_account_id = some (s.next_account_id.getD 0 + 1) := by
  simp only [insert_account, get_next_account_id, Account.try_from,
    Nat.add_sub_cancel] at h
  split at h
  · simp at h
  · have h1 := congrArg Prod.fst h
    have h2 := congrArg Prod.snd h
    simp only [] at h1 h2
    have ha : a.id = s.next_account_id.getD 0 := by
      have := congrArg (fun e => match e with
        | Except.ok (x : Account) => x.id
        | Except.error _ => 0) h1
      simpa using this.symm
    refine ⟨ha, ?_⟩
    rw [← h2]
    rfl

/-- C8: along any sequence of successful `insert_account` calls the assigned
ids are exactly the consecutive counter values starting at the counter's
initial value — hence strictly increasing and never reused, with the first
issued id determined by the initial counter — and each successful call
leaves the counter at its post-increment value, one past the id it handed
out (id = post-increment counter minus one). -/
theorem insert_account_ids_strictly_increasing (s : RedisStore)
    (ds : List AccountDetails) (s' : RedisStore) (accounts : List Account)
    (h : run_inserts s ds = some (s', accounts)) :
    accounts.map Account.id = List.range' (s.next_account_id.getD 0) ds.length
    ∧ List.Pairwise (fun i j => i < j) (accounts.map Account.id)
    ∧ ∀ (s0 s1 : RedisStore) (d : AccountDetails) (a : Account),
        insert_account s0 d = (.ok a, s1) →
        s1.next_account_id = some (a.id + 1) := by
  have hmap : ∀ (s : RedisStore) (s' : RedisStore) (accounts : List Account),
      run_inserts s ds = some (s', accounts) →
      accounts.map Account.id
        = List.range' (s.next_account_id.getD 0) ds.length := by
    clear h
    induction ds with
    | nil =>
        intro s s' accounts h
        simp only [run_inserts, Option.some.injEq, Prod.mk.injEq] at h
        rw [← h.2]
        rfl
    | cons d ds ih =>
        intro s s' accounts h
        simp only [run_inserts] at h
        split at h
        · rename_i a s1 heq
          split at h
          · rename_i s2 rest heq2
            simp only [Option.some.injEq, Prod.mk.injEq] at h
            obtain ⟨hs2, hacc⟩ := h
            obtain ⟨haid, hnext⟩ := insert_account_ok_id s d a s1 heq
            have ihr := ih s1 s2 rest heq2
            rw [hnext] at ihr
            simp only [Option.getD_some] at ihr
            rw [← hacc, List.map_cons, haid, ihr]
            rfl
          · exact Option.noConfusion h
        · exact Option.noConfusion h
  refine ⟨hmap s s' accounts h, ?_, ?_⟩
  · rw [hmap s s' accounts h]
    exact List.pairwise_lt_range' _ _
  · intro s0 s1 d a hins
    obtain ⟨haid, hnext⟩ := insert_account_ok_id s0 d a s1 hins
    rw [hnext, haid]

/-- Two collision-free registrations used by the id-allocation witness. -/
def d1 : AccountDetails := ⟨"u", none, none, "a", none, none, none, false⟩

/-- See `d1`. -/
def d2 : AccountDetails := ⟨"u", none, none, "b", none, none, none, false⟩

/-- The account records the two registrations of `d1`, `d2` produce. -/
def a1 : Account := ⟨0, "u", none, none, "a", none, none, none, false⟩

/-- See `a1`. -/
def a2 : Account := ⟨1, "u", none, none, "b", none, none, none, false⟩

/-- The store after registering `d1` then `d2` on `empty_store`. -/
def c8_final_store : RedisStore :=
  ⟨[(0, a1), (1, a2)], [(("u", 0), 0), (("u", 1), 0)], [], [], [], [],
   [("a", 0), ("b", 1)], [], some 2, [("a", 0), ("b", 1)]⟩

theorem insert_account_ids_strictly_increasing_witness :
    [a1, a2].map Account.id
      = List.range' (empty_store.next_account_id.getD 0) [d1, d2].length :=
  (insert_account_ids_strictly_increasing empty_store [d1, d2] c8_final_store
    [a1, a2] (by decide)).1

end InterledgerStore
